import Mathlib

/-!
Shallow embedding of the bucketbench container-benchmark drivers
(`driver/docker.go`, `driver/garden.go`) and of the benchmark constructor
(`benches` package).  External engine invocations (shell commands, the
`gaol` binary) are modelled by explicit response/state values passed to
the embedded functions; Go `(T, error)` returns become pairs with
`Option String`, or `Except String T`.
-/

namespace Bucketbench

/-- `startsList s pat` : the char list `s` starts with `pat`. -/
def startsList : List Char → List Char → Bool
  | _, [] => true
  | [], _ :: _ => false
  | c :: cs, p :: ps => c = p && startsList cs ps

/-- `containsSeq pat s` : `pat` occurs as a contiguous run inside `s`. -/
def containsSeq (pat : List Char) : List Char → Bool
  | [] => startsList [] pat
  | c :: cs => startsList (c :: cs) pat || containsSeq pat cs

/-- Embedding of Go `strings.Contains(s, pat)`. -/
def strContains (s pat : String) : Bool :=
  containsSeq pat.data s.data

/-- Embedding of Go `strings.Split(s, "\n")` (single-character separator):
splits the character list at every newline. -/
def splitNl : List Char → List (List Char)
  | [] => [[]]
  | c :: cs =>
    let r := splitNl cs
    if c = '\n' then [] :: r
    else (c :: r.headD []) :: r.tail

/-- Go `strings.Split(s, "\n")` at the `String` level. -/
def splitLines (s : String) : List String :=
  (splitNl s.data).map String.mk

/-- `bufio.ScanLines` drops one trailing carriage return from a line. -/
def dropCR (s : String) : String :=
  if s.endsWith "\r" then s.dropRight 1 else s

/-- Embedding of a `bufio.Scanner` over a string with the default
line splitter: one token per line, no empty token after a final
newline, trailing `\r` stripped. -/
def scanLines (s : String) : List String :=
  let parts := s.splitOn "\n"
  (if parts.getLast? = some "" then parts.dropLast else parts).map dropCR

/-- Equality of embedded Go `(value, error)` results is decidable, so
concrete runs of the embedded functions can be checked by `decide`. -/
instance {ε α : Type} [DecidableEq ε] [DecidableEq α] :
    DecidableEq (Except ε α) := fun
  | .error a, .error b => decidable_of_iff (a = b) (by simp)
  | .error _, .ok _ => isFalse (by simp)
  | .ok _, .error _ => isFalse (by simp)
  | .ok a, .ok b => decidable_of_iff (a = b) (by simp)

/-- Outcome of one external shell command: captured output plus whether
the command returned a non-zero status (Go non-nil `error`). -/
structure ExecResult where
  out : String
  isErr : Bool
deriving DecidableEq

end Bucketbench

namespace Bucketbench

/-- `driver/docker.go`: `DockerDriver` — resolved client binary path and
the memoized `Info` string (`""` = not yet computed). -/
structure DockerDriver where
  dockerBinary : String
  dockerInfo : String
deriving DecidableEq

/-- `driver/docker.go`: `DockerContainer` — per-instance metadata. -/
structure DockerContainer where
  name : String
  imageName : String
  cmdOverride : String
  detached : Bool
  trace : Bool
deriving DecidableEq

/-- Go `defaultDockerBinary`. -/
def defaultDockerBinary : String := "docker"

/-- Accessor `(c *DockerContainer) Name()`. -/
def DockerContainer.Name (c : DockerContainer) : String := c.name

/-- Accessor `(c *DockerContainer) Detached()`. -/
def DockerContainer.Detached (c : DockerContainer) : Bool := c.detached

/-- Accessor `(c *DockerContainer) Trace()`. -/
def DockerContainer.Trace (c : DockerContainer) : Bool := c.trace

/-- Accessor `(c *DockerContainer) Image()`. -/
def DockerContainer.Image (c : DockerContainer) : String := c.imageName

/-- Accessor `(c *DockerContainer) Command()`. -/
def DockerContainer.Command (c : DockerContainer) : String := c.cmdOverride

/-- `newDockerContainer`: builds the metadata object. -/
def newDockerContainer (name image cmd : String) (detached trace : Bool) :
    DockerContainer :=
  { name := name, imageName := image, cmdOverride := cmd,
    detached := detached, trace := trace }

/-- `(d *DockerDriver) Create`: returns `newDockerContainer(...), nil` —
it consults no engine state and cannot fail. -/
def DockerDriver.Create (name image cmdOverride : String)
    (detached trace : Bool) : DockerContainer × Option String :=
  (newDockerContainer name image cmdOverride detached trace, none)

/-- The shell command `Clean` issues first (note the `name=bb-ctr-`
filter handed to `docker ps`). -/
def dockerCleanStopCmd : String :=
  "docker stop `docker ps -qf name=bb-ctr-`"

/-- The shell command `Clean` issues second (again filtered by
`name=bb-ctr-`). -/
def dockerCleanRmCmd : String :=
  "docker rm -f `docker ps -aqf name=bb-ctr-`"

/-- Warning logged when the stop sweep fails for a real reason. -/
def dockerStopWarn : String :=
  "Docker: Failed to stop running bb-ctr-* containers"

/-- Warning logged when the remove sweep fails for a real reason. -/
def dockerRmWarn : String :=
  "Docker: Failed to remove exited bb-ctr-* containers"

/-- `(d *DockerDriver) Clean()`: runs `dockerCleanStopCmd` then
`dockerCleanRmCmd` (their outcomes are the two `ExecResult` inputs).
A failure whose output lacks "requires at least 1 argument" is only
logged as a warning; the function always returns `nil`. -/
def DockerDriver.Clean (stopResp rmResp : ExecResult) :
    List String × Option String :=
  let w1 := if stopResp.isErr &&
      !(strContains stopResp.out "requires at least 1 argument") then
      [dockerStopWarn] else []
  let w2 := if rmResp.isErr &&
      !(strContains rmResp.out "requires at least 1 argument") then
      [dockerRmWarn] else []
  (w1 ++ w2, none)

/-- Argument string `(d *DockerDriver) Run` passes to the docker binary:
`fmt.Sprintf("run %s --name %s %s", detached, ctr.Name(), ctr.Image())`.
The handle's `Command()` value is never consulted. -/
def DockerDriver.RunArgs (ctr : DockerContainer) : String :=
  let detached := if ctr.Detached then "-d" else ""
  "run " ++ detached ++ " --name " ++ ctr.Name ++ " " ++ ctr.Image

/-- Outcome of the two external calls `(d *DockerDriver) Info()` makes
(`docker version`, then `docker info`).  The Go code shadows the error
of the `version` call with the error of the `info` call, so only the
latter's failure bit is observable. -/
structure DockerInfoResp where
  versionOut : String
  infoOut : String
  infoErr : Bool
deriving DecidableEq

/-- Per-line state of the `docker version` scanner in `parseDaemonInfo`. -/
structure VParse where
  clientVer : String
  clientAPI : String
  serverVer : String
deriving DecidableEq

/-- One iteration of the `vScan.Scan()` loop in `parseDaemonInfo`.
Go indexes `parts[1]` unconditionally (panicking if the line has no
colon); the embedding reads it with a `""` default. -/
def versionLineStep (st : VParse) (line : String) : VParse :=
  let parts := line.splitOn ":"
  match (parts.headD "").trim with
  | "Version" =>
    if st.clientVer = "" then { st with clientVer := (parts.getD 1 "").trim }
    else { st with serverVer := (parts.getD 1 "").trim }
  | "API version" =>
    if st.clientAPI = "" then
      { st with clientAPI := parts.getD 1 "",
                clientVer := st.clientVer ++ "|API:" ++ (parts.getD 1 "").trim }
    else { st with serverVer := st.serverVer ++ "|API:" ++ (parts.getD 1 "").trim }
  | _ => st

/-- One iteration of the `iScan.Scan()` loop in `parseDaemonInfo`. -/
def infoLineStep (sv : String) (line : String) : String :=
  let parts := line.splitOn ":"
  match (parts.headD "").trim with
  | "Kernel Version" => sv ++ "|Kernel:" ++ (parts.getD 1 "").trim
  | "Storage Driver" => sv ++ "|Storage:" ++ (parts.getD 1 "").trim
  | "Backing Filesystem" => sv ++ "|BackingFS:" ++ (parts.getD 1 "").trim
  | _ => sv

/-- `parseDaemonInfo`: condenses `docker version` / `docker info` output. -/
def parseDaemonInfo (version info : String) : String :=
  let st := (scanLines version).foldl versionLineStep ⟨"", "", ""⟩
  let sv := (scanLines info).foldl infoLineStep st.serverVer
  "[CLIENT:" ++ st.clientVer ++ "][SERVER:" ++ sv ++ "]"

/-- `(d *DockerDriver) Info()`: returns the memoized string when present;
otherwise queries the engine, caches and returns the parsed summary, or
fails when the `docker info` call fails. -/
def DockerDriver.Info (d : DockerDriver) (r : DockerInfoResp) :
    Except String String × DockerDriver :=
  if d.dockerInfo ≠ "" then (.ok d.dockerInfo, d)
  else
    let infoStart := "docker driver (binary: " ++ d.dockerBinary ++ ")\n"
    if r.infoErr then
      (.error "Error trying to retrieve docker daemon info", d)
    else
      let s := infoStart ++ parseDaemonInfo r.versionOut r.infoOut
      (.ok s, { d with dockerInfo := s })

/-- Outcome of `utils.ResolveBinary` in `NewDockerDriver`. -/
structure ResolveResp where
  resolved : String
  isErr : Bool
deriving DecidableEq

/-- `NewDockerDriver`: substitutes the default binary name, resolves it
(failing on resolution error), then calls `driver.Info()` **discarding
its result** before returning the driver with a `nil` error. -/
def NewDockerDriver (resolveResp : ResolveResp) (infoResp : DockerInfoResp)
    (binaryPath : String) : DockerDriver × Option String :=
  let _binaryPath := if binaryPath = "" then defaultDockerBinary else binaryPath
  if resolveResp.isErr then
    ({ dockerBinary := "", dockerInfo := "" }, some "binary resolution error")
  else
    let driver : DockerDriver :=
      { dockerBinary := resolveResp.resolved, dockerInfo := "" }
    let driver := (DockerDriver.Info driver infoResp).2
    (driver, none)

end Bucketbench

namespace Bucketbench

/-- `driver/garden.go`: `gardenContainer` — only the name and the
detached flag are recorded; there is no image, command-override or
trace field, and no `Command()` accessor at all. -/
structure GardenContainer where
  name : String
  detached : Bool
deriving DecidableEq

/-- Accessor `(c *gardenContainer) Name()`. -/
def GardenContainer.Name (c : GardenContainer) : String := c.name

/-- Accessor `(c *gardenContainer) Detached()`. -/
def GardenContainer.Detached (c : GardenContainer) : Bool := c.detached

/-- Accessor `(c *gardenContainer) Trace()`: constantly `false`. -/
def GardenContainer.Trace (_ : GardenContainer) : Bool := false

/-- Accessor `(c *gardenContainer) Image()`: constantly `""`. -/
def GardenContainer.Image (_ : GardenContainer) : String := ""

/-- State of the external garden engine reached through the `gaol`
binary (`runGaol`).  `containers` is the list of live container names;
the `…Fault…` fields inject the failure outcomes which a real engine
may produce, so that every `runGaol` invocation's success and output
are determined by this value. -/
structure GardenEngine where
  containers : List String
  listFault : Bool
  destroyFaults : List String
  createFaults : List String
deriving DecidableEq

/-- Textual output of `gaol list`: one container name per line. -/
def linesOut : List String → String
  | [] => ""
  | n :: rest => n ++ "\n" ++ linesOut rest

/-- `runGaol("list")`: the engine either faults or prints its
containers one per line. -/
def gaolListRun (e : GardenEngine) : Except String String :=
  if e.listFault then .error "error running gaol list" else .ok (linesOut e.containers)

/-- `runGaol("destroy", c)`: faults when injected or when `c` is not a
live container; otherwise removes `c` from the engine. -/
def gaolDestroy (e : GardenEngine) (c : String) : Except String GardenEngine :=
  if c ∈ e.destroyFaults then .error "error running gaol destroy"
  else if c ∈ e.containers then .ok { e with containers := e.containers.erase c }
  else .error "error running gaol destroy"

/-- `(g *GardenDriver) Create`: issues `gaol create -n name` to the
engine (which may fail) and only then returns the metadata handle.
The `image` and `trace` arguments are accepted but never stored. -/
def GardenDriver.Create (e : GardenEngine) (name _image : String)
    (detached _trace : Bool) : Except String GardenContainer × GardenEngine :=
  if name ∈ e.createFaults then (.error "error running gaol create", e)
  else (.ok { name := name, detached := detached },
        { e with containers := e.containers ++ [name] })

/-- The `for _, container := range strings.Split(containers, "\n")`
loop of `(g *GardenDriver) Clean()`: skips empty entries, destroys the
rest, aborting on the first engine fault. -/
def gardenCleanLoop : GardenEngine → List String → Except String GardenEngine
  | e, [] => .ok e
  | e, c :: rest =>
    if c = "" then gardenCleanLoop e rest
    else
      match gaolDestroy e c with
      | .error msg => .error msg
      | .ok e1 => gardenCleanLoop e1 rest

/-- `(g *GardenDriver) Clean()`: lists **all** containers (no name
filter) and destroys each listed, surfacing any engine fault. -/
def GardenDriver.Clean (e : GardenEngine) : Except String GardenEngine :=
  match gaolListRun e with
  | .error msg => .error msg
  | .ok out => gardenCleanLoop e (splitLines out)

/-- `(g *GardenDriver) Stop`: `return "", 0, nil`. -/
def GardenDriver.Stop (_ : GardenContainer) : String × Int × Option String :=
  ("", 0, none)

/-- `(g *GardenDriver) Pause`: `return "", 0, nil`. -/
def GardenDriver.Pause (_ : GardenContainer) : String × Int × Option String :=
  ("", 0, none)

/-- `(g *GardenDriver) Unpause`: `return "", 0, nil`. -/
def GardenDriver.Unpause (_ : GardenContainer) : String × Int × Option String :=
  ("", 0, none)

/-- `(g *GardenDriver) Info()`: constant string, never an error. -/
def GardenDriver.Info : String × Option String :=
  ("Info for Garden isn't implemented yet", none)

end Bucketbench

namespace Bucketbench.Benches

/-- `benches` package, `State` constant `Created` (`iota` = 0). -/
def Created : Int := 0

/-- `benches` `State` constant `Running`. -/
def Running : Int := 1

/-- `benches` `State` constant `Completed`. -/
def Completed : Int := 2

/-- `benches` `Type` constant `Limit` (`iota` = 0). -/
def Limit : Int := 0

/-- `benches` `Type` constant `Custom`. -/
def Custom : Int := 1

/-- Modelled from the spec: the `LimitBench` struct lives in a benches
source file not present under `src/`; only its `state` field — the one
`New` initializes — is modelled, matching the spec's Benchmark State. -/
structure LimitBench where
  state : Int
deriving DecidableEq

/-- Modelled from the spec: the `CustomBench` struct lives in a benches
source file not present under `src/`; only its `state` field — the one
`New` initializes — is modelled. -/
structure CustomBench where
  state : Int
deriving DecidableEq

/-- A value of the `Bench` interface produced by `New`. -/
inductive Bench where
  | limit (b : LimitBench)
  | custom (b : CustomBench)
deriving DecidableEq

/-- The `State()` of a `Bench` value. -/
def Bench.state : Bench → Int
  | .limit b => b.state
  | .custom b => b.state

/-- `benches.New`: switch on the benchmark type; unknown types yield an
error and no benchmark. -/
def New (btype : Int) : Except String Bench :=
  if btype = Limit then .ok (.limit { state := Created })
  else if btype = Custom then .ok (.custom { state := Created })
  else .error ("No such benchmark type: " ++ toString btype)

end Bucketbench.Benches

namespace Bucketbench

/-- Appending to a non-empty string yields a non-empty string. -/
theorem str_append_ne_empty (x y : String) (h : x ≠ "") : x ++ y ≠ "" := by
  intro hxy
  apply h
  apply String.ext
  have hd := congrArg String.data hxy
  rw [String.data_append] at hd
  simpa using (List.append_eq_nil.mp hd).1

/-- The string `Info` caches is never empty (it starts with the fixed
banner `docker driver (binary: `). -/
theorem docker_info_string_ne_empty (b p : String) :
    "docker driver (binary: " ++ b ++ ")\n" ++ p ≠ "" := by
  apply str_append_ne_empty
  apply str_append_ne_empty
  apply str_append_ne_empty
  decide

/-- Splitting a newline-free chunk followed by a newline peels off
exactly that chunk. -/
theorem splitNl_append (a t : List Char) (h : '\n' ∉ a) :
    splitNl (a ++ '\n' :: t) = a :: splitNl t := by
  induction a with
  | nil => simp [splitNl]
  | cons c cs ih =>
    have hc : ¬(c = '\n') := fun e => h (by rw [e]; exact List.mem_cons_self _ _)
    have h' : '\n' ∉ cs := fun m => h (List.mem_cons_of_mem _ m)
    simp [splitNl, hc, ih h']

/-- Character data of the `gaol list` output. -/
theorem linesOut_data (n : String) (rest : List String) :
    (linesOut (n :: rest)).data = n.data ++ '\n' :: (linesOut rest).data := by
  show (n ++ "\n" ++ linesOut rest).data = _
  rw [String.data_append, String.data_append]
  simp

/-- Splitting the `gaol list` output on newlines recovers exactly the
container names plus one trailing empty entry. -/
theorem splitLines_linesOut (names : List String)
    (h : ∀ n ∈ names, '\n' ∉ n.data) :
    splitLines (linesOut names) = names ++ [""] := by
  induction names with
  | nil => rfl
  | cons n rest ih =>
    have ih' := ih fun m hm => h m (List.mem_cons_of_mem _ hm)
    unfold splitLines at ih' ⊢
    rw [linesOut_data, splitNl_append _ _ (h n (List.mem_cons_self _ _)),
      List.map_cons, ih']
    rfl

/-- When every listed name is non-empty and destroy never faults on
them, the destroy loop succeeds and leaves no containers. -/
theorem gardenCleanLoop_clean (names : List String) :
    ∀ e : GardenEngine, e.containers = names → (∀ n ∈ names, n ≠ "") →
    (∀ n ∈ names, n ∉ e.destroyFaults) →
    gardenCleanLoop e (names ++ [""]) = .ok { e with containers := [] } := by
  induction names with
  | nil =>
    intro e hc _ _
    obtain ⟨cs, lf, df, cf⟩ := e
    simp only at hc
    subst hc
    simp [gardenCleanLoop]
  | cons n rest ih =>
    intro e hc hne hdf
    have hn : ¬(n = "") := hne n (List.mem_cons_self _ _)
    have hd : n ∉ e.destroyFaults := hdf n (List.mem_cons_self _ _)
    have hmem : n ∈ e.containers := by rw [hc]; exact List.mem_cons_self _ _
    rw [List.cons_append]
    unfold gardenCleanLoop gaolDestroy
    rw [if_neg hn, if_neg hd, if_pos hmem, hc, List.erase_cons_head]
    have step := ih { e with containers := rest } rfl
      (fun m hm => hne m (List.mem_cons_of_mem _ hm))
      (fun m hm => hdf m (List.mem_cons_of_mem _ hm))
    simpa using step

/-- If the destroy loop over all listed names succeeds, the resulting
engine has no containers left. -/
theorem gardenCleanLoop_ok_empty (names : List String) :
    ∀ e e' : GardenEngine, e.containers = names → (∀ n ∈ names, n ≠ "") →
    gardenCleanLoop e (names ++ [""]) = .ok e' →
    e' = { e with containers := [] } := by
  induction names with
  | nil =>
    intro e e' hc _ h
    obtain ⟨cs, lf, df, cf⟩ := e
    simp only at hc
    subst hc
    simp [gardenCleanLoop] at h
    exact h.symm
  | cons n rest ih =>
    intro e e' hc hne h
    have hn : ¬(n = "") := hne n (List.mem_cons_self _ _)
    have hmem : n ∈ e.containers := by rw [hc]; exact List.mem_cons_self _ _
    rw [List.cons_append] at h
    unfold gardenCleanLoop gaolDestroy at h
    rw [if_neg hn] at h
    by_cases hd : n ∈ e.destroyFaults
    · rw [if_pos hd] at h
      simp at h
    · rw [if_neg hd, if_pos hmem, hc, List.erase_cons_head] at h
      have := ih { e with containers := rest } e' rfl
        (fun m hm => hne m (List.mem_cons_of_mem _ hm)) h
      simpa using this

/-- If the destroy loop over all listed names succeeds, none of the
listed names had a destroy fault armed: each one was destroyed. -/
theorem gardenCleanLoop_ok_faultfree (names : List String) :
    ∀ e e' : GardenEngine, e.containers = names → (∀ n ∈ names, n ≠ "") →
    gardenCleanLoop e (names ++ [""]) = .ok e' →
    ∀ n ∈ names, n ∉ e.destroyFaults := by
  induction names with
  | nil =>
    intro e e' _ _ _ n hn
    cases hn
  | cons n rest ih =>
    intro e e' hc hne h m hm
    have hn : ¬(n = "") := hne n (List.mem_cons_self _ _)
    have hmem : n ∈ e.containers := by rw [hc]; exact List.mem_cons_self _ _
    rw [List.cons_append] at h
    unfold gardenCleanLoop gaolDestroy at h
    rw [if_neg hn] at h
    by_cases hd : n ∈ e.destroyFaults
    · rw [if_pos hd] at h
      simp at h
    · rw [if_neg hd, if_pos hmem, hc, List.erase_cons_head] at h
      rcases List.mem_cons.mp hm with hm1 | hm2
      · subst hm1
        exact hd
      · exact ih { e with containers := rest } e' rfl
          (fun x hx => hne x (List.mem_cons_of_mem _ hx)) h m hm2

/-- C1 counterexample: a genuine engine fault during Docker's cleanup
sweep (non-zero exit, output lacking the benign "requires at least 1
argument" marker).  `Clean` classifies it as genuine — both warnings
are logged — yet the returned error is still `none`, refuting
"returns an error exactly when a genuine engine fault occurs". -/
theorem dockerClean_genuine_fault_no_error :
    DockerDriver.Clean ⟨"Error response from daemon", true⟩
        ⟨"Error response from daemon", true⟩ =
      ([dockerStopWarn, dockerRmWarn], none) := by
  decide

/-- C1 (amended): every driver's `Clean` treats "nothing to clean" as
success.  Docker's `Clean` never returns an error — genuine faults are
only logged as warnings — while Garden's `Clean` returns an error
exactly when a genuine engine fault occurs during the sweep: for any
engine whose container names are well formed, `Clean` succeeds iff
the list call does not fault and no listed container's destroy
faults (a faulting list call yields its error verbatim). -/
theorem clean_error_policy_amended :
    (∀ stopResp rmResp : ExecResult,
      (DockerDriver.Clean stopResp rmResp).2 = none) ∧
    (∀ e : GardenEngine, e.containers = [] → e.listFault = false →
      GardenDriver.Clean e = .ok e) ∧
    (∀ e : GardenEngine, e.listFault = true →
      GardenDriver.Clean e = .error "error running gaol list") ∧
    (∀ e : GardenEngine, (∀ n ∈ e.containers, n ≠ "" ∧ '\n' ∉ n.data) →
      ((∃ e' : GardenEngine, GardenDriver.Clean e = .ok e') ↔
        (e.listFault = false ∧ ∀ n ∈ e.containers, n ∉ e.destroyFaults))) := by
  refine ⟨fun _ _ => rfl, ?_, ?_, ?_⟩
  · intro e hc hl
    unfold GardenDriver.Clean gaolListRun
    rw [if_neg (by simp [hl]), hc]
    show gardenCleanLoop e (splitLines "") = _
    simp [splitLines, splitNl, gardenCleanLoop]
  · intro e hl
    unfold GardenDriver.Clean gaolListRun
    rw [if_pos hl]
  · intro e hwf
    constructor
    · rintro ⟨e', h⟩
      by_cases hl : e.listFault
      · unfold GardenDriver.Clean gaolListRun at h
        rw [if_pos hl] at h
        simp at h
      · refine ⟨by simpa using hl, ?_⟩
        unfold GardenDriver.Clean gaolListRun at h
        rw [if_neg hl] at h
        have h' : gardenCleanLoop e (splitLines (linesOut e.containers)) =
            .ok e' := h
        rw [splitLines_linesOut e.containers (fun n hn => (hwf n hn).2)] at h'
        exact gardenCleanLoop_ok_faultfree e.containers e e' rfl
          (fun n hn => (hwf n hn).1) h'
    · rintro ⟨hl, hdf⟩
      refine ⟨{ e with containers := [] }, ?_⟩
      unfold GardenDriver.Clean gaolListRun
      rw [if_neg (by simp [hl])]
      show gardenCleanLoop e (splitLines (linesOut e.containers)) = _
      rw [splitLines_linesOut e.containers (fun n hn => (hwf n hn).2)]
      exact gardenCleanLoop_clean e.containers e rfl
        (fun n hn => (hwf n hn).1) hdf

/-- C1 witness: an engine with nothing to clean (but with fault
injections armed elsewhere) is cleaned without error. -/
theorem clean_error_policy_amended_witness :
    GardenDriver.Clean ⟨[], false, ["x"], ["y"]⟩ = .ok ⟨[], false, ["x"], ["y"]⟩ :=
  clean_error_policy_amended.2.1 ⟨[], false, ["x"], ["y"]⟩ rfl rfl

/-- C2 counterexample: Garden's `Create` issues `gaol create -n <name>`
to the external engine; when that engine command fails, `Create`
returns an error and no handle, refuting "for every driver, Create
allocates in-memory container metadata only ... and returns a handle
without error". -/
theorem gardenCreate_engine_error :
    (GardenDriver.Create ⟨[], false, [], ["bb-ctr-1"]⟩
        "bb-ctr-1" "alpine" true false).1 =
      .error "error running gaol create" := by
  decide

/-- C2 (amended): Docker's `Create` allocates in-memory metadata only
and never returns an error; Garden's `Create` issues a `gaol create`
command to the engine — on success it registers the container with the
engine and returns the handle, and when the engine command fails it
returns an error and leaves the engine unchanged. -/
theorem create_allocation_amended :
    (∀ (name image cmdOverride : String) (detached trace : Bool),
      (DockerDriver.Create name image cmdOverride detached trace).2 = none) ∧
    (∀ (e : GardenEngine) (name image : String) (detached trace : Bool),
      name ∉ e.createFaults →
      GardenDriver.Create e name image detached trace =
        (.ok { name := name, detached := detached },
         { e with containers := e.containers ++ [name] })) ∧
    (∀ (e : GardenEngine) (name image : String) (detached trace : Bool),
      name ∈ e.createFaults →
      GardenDriver.Create e name image detached trace =
        (.error "error running gaol create", e)) := by
  refine ⟨fun _ _ _ _ _ => rfl, ?_, ?_⟩
  · intro e name image detached trace hf
    unfold GardenDriver.Create
    rw [if_neg hf]
  · intro e name image detached trace hf
    unfold GardenDriver.Create
    rw [if_pos hf]

/-- C2 witness: a successful Garden `Create` at a concrete engine. -/
theorem create_allocation_amended_witness :
    GardenDriver.Create ⟨[], false, [], []⟩ "bb-ctr-1" "alpine" true false =
      (.ok { name := "bb-ctr-1", detached := true },
       { containers := ["bb-ctr-1"], listFault := false,
         destroyFaults := [], createFaults := [] }) := by
  have := create_allocation_amended.2.1 ⟨[], false, [], []⟩
    "bb-ctr-1" "alpine" true false (by decide)
  simpa using this

/-- C3: Garden cannot support `Stop`, `Pause` and `Unpause`; each is a
safe no-op returning empty output, zero elapsed time and no error, for
every container handle. -/
theorem garden_unsupported_ops_noop :
    ∀ c : GardenContainer,
      GardenDriver.Stop c = ("", 0, none) ∧
      GardenDriver.Pause c = ("", 0, none) ∧
      GardenDriver.Unpause c = ("", 0, none) :=
  fun _ => ⟨rfl, rfl, rfl⟩

/-- C10: the argument string Docker's `Run` hands to the engine depends
only on the handle's detached flag, name and image — two handles that
agree on those produce identical engine invocations, whatever their
command overrides (or trace flags) are — even though the handle still
carries the override through its `Command()` accessor. -/
theorem docker_run_ignores_command_override :
    (∀ c1 c2 : DockerContainer, c1.name = c2.name →
      c1.imageName = c2.imageName → c1.detached = c2.detached →
      DockerDriver.RunArgs c1 = DockerDriver.RunArgs c2) ∧
    (∀ c : DockerContainer, DockerContainer.Command c = c.cmdOverride) := by
  refine ⟨?_, fun _ => rfl⟩
  intro c1 c2 hn hi hd
  unfold DockerDriver.RunArgs DockerContainer.Detached DockerContainer.Name
    DockerContainer.Image
  rw [hn, hi, hd]

/-- C10 witness: handles differing only in command override (and trace)
yield the same engine invocation. -/
theorem docker_run_ignores_command_override_witness :
    DockerDriver.RunArgs ⟨"bb-ctr-0", "alpine", "date", true, false⟩ =
      DockerDriver.RunArgs ⟨"bb-ctr-0", "alpine", "", true, true⟩ :=
  docker_run_ignores_command_override.1 _ _ rfl rfl rfl

/-- Helper: a driver whose cache is populated answers `Info` from the
cache, whatever the engine response would be. -/
theorem docker_info_cached (d : DockerDriver) (h : d.dockerInfo ≠ "")
    (r : DockerInfoResp) : DockerDriver.Info d r = (.ok d.dockerInfo, d) := by
  unfold DockerDriver.Info
  rw [if_pos h]

/-- C4: a driver's `Info` string is memoized — after one successful
`Info` call, every later call returns the same string and no error
whatever the engine would now answer (the engine is not re-queried);
and `Info` fails only when the underlying `docker info` engine query
fails.  Garden's `Info` is a constant and never fails. -/
theorem docker_info_memoized :
    (∀ (d : DockerDriver) (r : DockerInfoResp) (s : String) (d' : DockerDriver),
      DockerDriver.Info d r = (.ok s, d') →
      ∀ r' : DockerInfoResp, DockerDriver.Info d' r' = (.ok s, d')) ∧
    (∀ (d : DockerDriver) (r : DockerInfoResp) (msg : String) (d' : DockerDriver),
      DockerDriver.Info d r = (.error msg, d') → r.infoErr = true) ∧
    GardenDriver.Info = ("Info for Garden isn't implemented yet", none) := by
  refine ⟨?_, ?_, rfl⟩
  · intro d r s d' h r'
    unfold DockerDriver.Info at h
    by_cases hc : d.dockerInfo = ""
    · rw [if_neg (fun hne => hne hc)] at h
      by_cases hr : r.infoErr
      · rw [if_pos hr] at h
        exact absurd (congrArg Prod.fst h) (by simp)
      · rw [if_neg hr] at h
        simp only [Prod.mk.injEq, Except.ok.injEq] at h
        obtain ⟨hs, hd⟩ := h
        have hne : ("docker driver (binary: " ++ d.dockerBinary ++ ")\n" ++
            parseDaemonInfo r.versionOut r.infoOut) ≠ "" :=
          docker_info_string_ne_empty _ _
        have hdi : d'.dockerInfo = s := by rw [← hd]; exact hs
        have hsne : s ≠ "" := hs ▸ hne
        rw [docker_info_cached d' (by rw [hdi]; exact hsne) r', hdi]
    · rw [if_pos hc] at h
      simp only [Prod.mk.injEq, Except.ok.injEq] at h
      obtain ⟨hs, hd⟩ := h
      subst hd
      rw [docker_info_cached d hc r', hs]
  · intro d r msg d' h
    unfold DockerDriver.Info at h
    by_cases hc : d.dockerInfo = ""
    · by_cases hr : r.infoErr
      · exact hr
      · rw [if_neg (fun hne => hne hc), if_neg hr] at h
        exact absurd (congrArg Prod.fst h) (by simp)
    · rw [if_pos hc] at h
      exact absurd (congrArg Prod.fst h) (by simp)

/-- C4 witness: a driver with a populated cache answers from the cache
even when the engine would now fail (`infoErr = true`). -/
theorem docker_info_memoized_witness :
    DockerDriver.Info ⟨"docker", "cached"⟩ ⟨"v", "i", true⟩ =
      (.ok "cached", ⟨"docker", "cached"⟩) :=
  docker_info_memoized.1 ⟨"docker", "cached"⟩ ⟨"", "", false⟩ "cached"
    ⟨"docker", "cached"⟩ (by decide) ⟨"v", "i", true⟩

/-- C5 counterexample: the binary resolves but the daemon is
unreachable (the construction-time `Info` probe fails), yet
`NewDockerDriver` still returns a `nil` error — the `driver.Info()`
result is discarded — refuting "returns an error whenever ... the
daemon is unreachable". -/
theorem newDockerDriver_unreachable_daemon_no_error :
    NewDockerDriver ⟨"/usr/bin/docker", false⟩ ⟨"", "", true⟩ "" =
      ({ dockerBinary := "/usr/bin/docker", dockerInfo := "" }, none) := by
  decide

/-- C5 (amended): `NewDockerDriver` returns an error exactly when the
client binary cannot be resolved; the daemon-reachability probe made
through `driver.Info()` is discarded, so daemon unreachability does
not fail construction. -/
theorem newDockerDriver_error_iff_resolve_fails :
    ∀ (rr : ResolveResp) (ir : DockerInfoResp) (bp : String),
      (NewDockerDriver rr ir bp).2 = none ↔ rr.isErr = false := by
  intro rr ir bp
  unfold NewDockerDriver
  by_cases hr : rr.isErr
  · rw [if_pos hr]
    simp [hr]
  · rw [if_neg hr]
    simp [hr]

/-- C6 counterexample: Garden's `Create` is given image `"alpine"` and
trace `true`, but the returned handle reports image `""` and trace
`false` (and has no command-override accessor at all), refuting "for
every driver the handle carries exactly the Create arguments". -/
theorem gardenContainer_drops_image_trace :
    (GardenDriver.Create ⟨[], false, [], []⟩ "bb-ctr-1" "alpine" false true).1 =
      .ok { name := "bb-ctr-1", detached := false } ∧
    GardenContainer.Image { name := "bb-ctr-1", detached := false } = "" ∧
    GardenContainer.Trace { name := "bb-ctr-1", detached := false } = false := by
  refine ⟨by decide, rfl, rfl⟩

/-- C6 (amended): Docker's handle carries exactly the five Create
arguments through its accessors; Garden's handle records only the name
and the detached flag — its `Image()` always returns `""`, its
`Trace()` always returns `false`, and the image/trace arguments are
dropped. -/
theorem container_handle_fields_amended :
    (∀ (name image cmdOverride : String) (detached trace : Bool),
      ((DockerDriver.Create name image cmdOverride detached trace).1.Name = name) ∧
      ((DockerDriver.Create name image cmdOverride detached trace).1.Image = image) ∧
      ((DockerDriver.Create name image cmdOverride detached trace).1.Command = cmdOverride) ∧
      ((DockerDriver.Create name image cmdOverride detached trace).1.Detached = detached) ∧
      ((DockerDriver.Create name image cmdOverride detached trace).1.Trace = trace)) ∧
    (∀ (e : GardenEngine) (name image : String) (detached trace : Bool)
      (c : GardenContainer) (e1 : GardenEngine),
      GardenDriver.Create e name image detached trace = (.ok c, e1) →
      c.Name = name ∧ c.Detached = detached ∧ c.Image = "" ∧ c.Trace = false) := by
  refine ⟨fun _ _ _ _ _ => ⟨rfl, rfl, rfl, rfl, rfl⟩, ?_⟩
  intro e name image detached trace c e1 h
  unfold GardenDriver.Create at h
  by_cases hf : name ∈ e.createFaults
  · rw [if_pos hf] at h
    exact absurd (congrArg Prod.fst h) (by simp)
  · rw [if_neg hf] at h
    have hc := congrArg Prod.fst h
    simp only at hc
    have : ({ name := name, detached := detached } : GardenContainer) = c := by
      simpa using hc
    rw [← this]
    exact ⟨rfl, rfl, rfl, rfl⟩

/-- C6 witness: the Garden handle for a concrete successful `Create`. -/
theorem container_handle_fields_amended_witness :
    GardenContainer.Name ⟨"bb-ctr-1", true⟩ = "bb-ctr-1" ∧
    GardenContainer.Detached ⟨"bb-ctr-1", true⟩ = true ∧
    GardenContainer.Image ⟨"bb-ctr-1", true⟩ = "" ∧
    GardenContainer.Trace ⟨"bb-ctr-1", true⟩ = false :=
  container_handle_fields_amended.2 ⟨[], false, [], []⟩ "bb-ctr-1" "alpine"
    true false ⟨"bb-ctr-1", true⟩ ⟨["bb-ctr-1"], false, [], []⟩ (by decide)

/-- C7 counterexample: the Garden engine holds one container
`"user-app"`, which does not carry the tool's `bb-ctr-` prefix (it was
not created by the tool), yet `Clean` destroys it — Garden's cleanup
has no naming filter, refuting "containers not created by the tool are
left unchanged by Clean". -/
theorem gardenClean_destroys_foreign_container :
    GardenDriver.Clean ⟨["user-app"], false, [], []⟩ =
      .ok ⟨[], false, [], []⟩ := by
  decide

/-- C7 (amended): Docker's cleanup sweep targets only containers
matching the `bb-ctr-` naming convention (both shell commands filter
by `name=bb-ctr-`); Garden's `Clean`, by contrast, destroys every
container the engine lists, regardless of name. -/
theorem clean_scope_amended :
    (strContains dockerCleanStopCmd "name=bb-ctr-" = true ∧
     strContains dockerCleanRmCmd "name=bb-ctr-" = true) ∧
    (∀ e : GardenEngine, e.listFault = false →
      (∀ n ∈ e.containers, n ≠ "" ∧ '\n' ∉ n.data ∧ n ∉ e.destroyFaults) →
      GardenDriver.Clean e = .ok { e with containers := [] }) := by
  refine ⟨⟨by decide, by decide⟩, ?_⟩
  intro e hl h
  unfold GardenDriver.Clean gaolListRun
  rw [if_neg (by simp [hl])]
  show gardenCleanLoop e (splitLines (linesOut e.containers)) = _
  rw [splitLines_linesOut e.containers (fun n hn => ((h n hn).2).1)]
  exact gardenCleanLoop_clean e.containers e rfl
    (fun n hn => (h n hn).1) (fun n hn => ((h n hn).2).2)

/-- C7 witness: a concrete engine is swept empty. -/
theorem clean_scope_amended_witness :
    GardenDriver.Clean ⟨["bb-ctr-0", "other"], false, [], []⟩ =
      .ok ⟨[], false, [], []⟩ :=
  clean_scope_amended.2 ⟨["bb-ctr-0", "other"], false, [], []⟩ rfl (by decide)

/-- C8: `Clean` is idempotent with respect to errors.  Docker's `Clean`
never returns an error, so any second call is error-free; for Garden,
if a `Clean` succeeds then — with no intervening container creation —
running `Clean` again on the resulting engine succeeds as well (the
first success leaves no containers behind). -/
theorem clean_idempotent :
    (∀ stopResp rmResp : ExecResult,
      (DockerDriver.Clean stopResp rmResp).2 = none) ∧
    (∀ e e' : GardenEngine,
      (∀ n ∈ e.containers, n ≠ "" ∧ '\n' ∉ n.data) →
      GardenDriver.Clean e = .ok e' →
      GardenDriver.Clean e' = .ok e') := by
  refine ⟨fun _ _ => rfl, ?_⟩
  intro e e' h1 h2
  by_cases hl : e.listFault
  · unfold GardenDriver.Clean gaolListRun at h2
    rw [if_pos hl] at h2
    simp at h2
  · unfold GardenDriver.Clean gaolListRun at h2
    rw [if_neg hl] at h2
    have h2' : gardenCleanLoop e (splitLines (linesOut e.containers)) = .ok e' := h2
    rw [splitLines_linesOut e.containers (fun n hn => (h1 n hn).2)] at h2'
    have he' := gardenCleanLoop_ok_empty e.containers e e' rfl
      (fun n hn => (h1 n hn).1) h2'
    subst he'
    unfold GardenDriver.Clean gaolListRun
    rw [if_neg (by simpa using hl)]
    show gardenCleanLoop _ (splitLines (linesOut [])) = _
    simp [linesOut, splitLines, splitNl, gardenCleanLoop]

/-- C8 witness: a successful first `Clean` at a concrete engine,
followed by an error-free second `Clean`. -/
theorem clean_idempotent_witness :
    GardenDriver.Clean ⟨[], false, [], []⟩ = .ok ⟨[], false, [], []⟩ :=
  clean_idempotent.2 ⟨["bb-ctr-0"], false, [], []⟩ ⟨[], false, [], []⟩
    (by decide) (by decide)

/-- C9: `benches.New` yields a benchmark in the `Created` state for the
`Limit` and `Custom` types, errors (constructing nothing) on every
other type, and any benchmark it constructs has a state among
`{Created, Running, Completed}`. -/
theorem benches_new_initial_state :
    Benches.New Benches.Limit = .ok (.limit { state := Benches.Created }) ∧
    Benches.New Benches.Custom = .ok (.custom { state := Benches.Created }) ∧
    (∀ t : Int, t ≠ Benches.Limit → t ≠ Benches.Custom →
      Benches.New t = .error ("No such benchmark type: " ++ toString t)) ∧
    (∀ (t : Int) (b : Benches.Bench), Benches.New t = .ok b →
      b.state = Benches.Created ∧
      (b.state = Benches.Created ∨ b.state = Benches.Running ∨
        b.state = Benches.Completed)) := by
  refine ⟨by decide, by decide, ?_, ?_⟩
  · intro t h1 h2
    unfold Benches.New
    rw [if_neg h1, if_neg h2]
  · intro t b h
    unfold Benches.New at h
    by_cases h1 : t = Benches.Limit
    · rw [if_pos h1] at h
      have : (Benches.Bench.limit { state := Benches.Created }) = b := by
        simpa using h
      rw [← this]
      exact ⟨rfl, Or.inl rfl⟩
    · rw [if_neg h1] at h
      by_cases h2 : t = Benches.Custom
      · rw [if_pos h2] at h
        have : (Benches.Bench.custom { state := Benches.Created }) = b := by
          simpa using h
        rw [← this]
        exact ⟨rfl, Or.inl rfl⟩
      · rw [if_neg h2] at h
        simp at h

/-- C9 witness: an unknown benchmark type yields an error. -/
theorem benches_new_initial_state_witness :
    Benches.New 5 = .error ("No such benchmark type: " ++ toString (5 : Int)) :=
  benches_new_initial_state.2.2.1 5 (by decide) (by decide)

end Bucketbench
